import Mathlib

/-!
Shallow embedding of the IBC light-client substrate (ICS-02) and the
Tendermint light client (ICS-07) misbehaviour logic, together with the
mock host context of the test kit, as found in:

  * crates/ibc-clients/ics07-tendermint/src/client_state/misbehaviour.rs
  * crates/ibc-core/ics02-client/src/handler/upgrade_client.rs
  * ibc-testkit/src/testapp/ibc/core/client_ctx.rs
  * ibc-testkit/src/testapp/ibc/clients/mod.rs

Machine integers (`u64`) are modelled with `Nat`; none of the embedded
operations can overflow on the inputs the theorems quantify over (heights
and times are only compared and subtracted with explicit saturation via
`Option`).  Fallible Rust functions returning `Result` are modelled with
`Except`; a Rust `panic!`/`expect` is modelled by an outer `Option` layer
(`none` = panic) where it is reachable.  `BTreeMap` is modelled by an
association list with distinct keys.
-/

/-- `Height` — a pair `(revision_number, revision_height)` with
lexicographic ordering (ibc-core-client-types `Height`). -/
structure Height where
  revision_number : Nat
  revision_height : Nat
deriving DecidableEq, Repr

instance : LE Height :=
  ⟨fun a b => a.revision_number < b.revision_number ∨
    (a.revision_number = b.revision_number ∧ a.revision_height ≤ b.revision_height)⟩

instance : LT Height :=
  ⟨fun a b => a.revision_number < b.revision_number ∨
    (a.revision_number = b.revision_number ∧ a.revision_height < b.revision_height)⟩

theorem Height.le_def (a b : Height) : a ≤ b ↔
    (a.revision_number < b.revision_number ∨
      (a.revision_number = b.revision_number ∧ a.revision_height ≤ b.revision_height)) :=
  Iff.rfl

theorem Height.lt_def (a b : Height) : a < b ↔
    (a.revision_number < b.revision_number ∨
      (a.revision_number = b.revision_number ∧ a.revision_height < b.revision_height)) :=
  Iff.rfl

instance : DecidableRel (fun (a b : Height) => a ≤ b) := fun a b =>
  decidable_of_iff _ (Height.le_def a b).symm

instance : DecidableRel (fun (a b : Height) => a < b) := fun a b =>
  decidable_of_iff _ (Height.lt_def a b).symm

instance (a b : Height) : Decidable (a ≤ b) :=
  decidable_of_iff _ (Height.le_def a b).symm

instance (a b : Height) : Decidable (a < b) :=
  decidable_of_iff _ (Height.lt_def a b).symm

theorem Height.le_total' (a b : Height) : a ≤ b ∨ b ≤ a := by
  rcases a with ⟨an, ah⟩; rcases b with ⟨bn, bh⟩
  simp only [Height.le_def]
  omega

theorem Height.le_trans' {a b c : Height} (h1 : a ≤ b) (h2 : b ≤ c) : a ≤ c := by
  rcases a with ⟨an, ah⟩; rcases b with ⟨bn, bh⟩; rcases c with ⟨cn, ch⟩
  simp only [Height.le_def] at *
  omega

theorem Height.le_antisymm' {a b : Height} (h1 : a ≤ b) (h2 : b ≤ a) : a = b := by
  rcases a with ⟨an, ah⟩; rcases b with ⟨bn, bh⟩
  simp only [Height.le_def] at *
  have : an = bn ∧ ah = bh := by omega
  simp [this.1, this.2]

theorem Height.lt_iff_le_not_le' {a b : Height} : a < b ↔ a ≤ b ∧ ¬ b ≤ a := by
  rcases a with ⟨an, ah⟩; rcases b with ⟨bn, bh⟩
  simp only [Height.lt_def, Height.le_def]
  omega

instance : IsTotal Height (· ≤ ·) := ⟨Height.le_total'⟩
instance : IsTrans Height (· ≤ ·) := ⟨fun _ _ _ => Height.le_trans'⟩
instance : IsTotal Height (fun a b => b ≤ a) := ⟨fun a b => (Height.le_total' b a)⟩
instance : IsTrans Height (fun a b => b ≤ a) := ⟨fun _ _ _ h1 h2 => Height.le_trans' h2 h1⟩

/-- `Height::new(revision_number, revision_height)` fails when
`revision_height == 0`. -/
def Height.new (revision_number revision_height : Nat) : Option Height :=
  if revision_height = 0 then none else some ⟨revision_number, revision_height⟩

/-- Timestamps are UTC nanoseconds since the Unix epoch; the value `0`
plays the role of the `None` sentinel of `ibc_primitives::Timestamp`. -/
abbrev Timestamp := Nat

/-- `Timestamp::duration_since(&other)`: `Some(self - other)` when
`self >= other`, `None` otherwise. -/
def Timestamp.duration_since (self other : Timestamp) : Option Nat :=
  if other ≤ self then some (self - other) else none

/-- Association-list model of `BTreeMap::get`. -/
def lookupA {α β : Type} [DecidableEq α] : List (α × β) → α → Option β
  | [], _ => none
  | (k, v) :: rest, key => if k = key then some v else lookupA rest key

/-- Association-list model of `BTreeMap::insert` (replaces the value at an
existing key, otherwise adds the binding). -/
def insertA {α β : Type} [DecidableEq α] : List (α × β) → α → β → List (α × β)
  | [], k, v => [(k, v)]
  | (k', v') :: rest, k, v =>
      if k' = k then (k, v) :: rest else (k', v') :: insertA rest k v

/-- Association-list model of `BTreeMap::remove`. -/
def removeA {α β : Type} [DecidableEq α] : List (α × β) → α → List (α × β)
  | [], _ => []
  | (k', v') :: rest, k => if k' = k then rest else (k', v') :: removeA rest k

theorem lookupA_nil {α β : Type} [DecidableEq α] (k : α) :
    lookupA ([] : List (α × β)) k = none := rfl

theorem lookupA_cons {α β : Type} [DecidableEq α] (k' : α) (v' : β) (rest : List (α × β)) (k : α) :
    lookupA ((k', v') :: rest) k = if k' = k then some v' else lookupA rest k := rfl

theorem insertA_lookupA_self {α β : Type} [DecidableEq α] (l : List (α × β)) (k : α) (v : β) :
    lookupA (insertA l k v) k = some v := by
  induction l with
  | nil => simp [insertA, lookupA]
  | cons hd tl ih =>
      obtain ⟨k', v'⟩ := hd
      by_cases h : k' = k <;> simp [insertA, lookupA, h, ih]

/-- A key of an association list is in its key list exactly when `lookupA`
finds a value for it. -/
theorem lookupA_isSome_iff_mem_keys {α β : Type} [DecidableEq α]
    (l : List (α × β)) (k : α) : (lookupA l k).isSome ↔ k ∈ l.map Prod.fst := by
  induction l with
  | nil => simp [lookupA]
  | cons hd tl ih =>
      obtain ⟨k', v'⟩ := hd
      by_cases h : k' = k
      · simp [lookupA, h]
      · simp only [lookupA, if_neg h, ih, List.map_cons, List.mem_cons]
        constructor
        · intro hm; exact Or.inr hm
        · rintro (hm | hm)
          · exact absurd hm.symm h
          · exact hm

/-- `ChainId` — `<name>-<revision>`; the parsed form is kept directly since
the string parser is outside the embedded files. -/
structure ChainId where
  name : String
  revision : Nat
deriving DecidableEq, Repr

/-- Tendermint `ConsensusState`: `{ timestamp, root, next_validators_hash }`
(ibc-client-tendermint-types).  The commitment root and hashes are abstract
`Nat` digests. -/
structure TmConsensusState where
  timestamp : Timestamp
  root : Nat
  next_validators_hash : Nat
deriving DecidableEq, Repr

structure BlockId where
  hash : Nat
deriving DecidableEq, Repr

structure Commit where
  block_id : BlockId
deriving DecidableEq, Repr

/-- The fields of `signed_header.header` the embedded code reads. -/
structure BlockHeader where
  chain_id : ChainId
  height : Nat
  time : Timestamp
deriving DecidableEq, Repr

structure SignedHeader where
  header : BlockHeader
  commit : Commit
deriving DecidableEq, Repr

/-- A validator set abstracted by its hash digest. -/
structure ValidatorSet where
  hash : Nat
deriving DecidableEq, Repr

/-- Tendermint `Header` message: untrusted signed header and validator set
plus the trusted anchor data. -/
structure TmHeader where
  signed_header : SignedHeader
  validator_set : ValidatorSet
  trusted_height : Height
  trusted_next_validator_set : ValidatorSet
deriving DecidableEq, Repr

/-- `TmHeader::height()`: `Height::new(chain_id revision, block height)`. -/
def TmHeader.height (h : TmHeader) : Height :=
  ⟨h.signed_header.header.chain_id.revision, h.signed_header.header.height⟩

structure TrustLevel where
  numerator : Nat
  denominator : Nat
deriving DecidableEq, Repr

/-- Tendermint `ClientState` (the Rust newtype over `ClientStateType` is
flattened; only the fields the embedded methods read are kept). -/
structure TmClientState where
  chain_id : ChainId
  trust_level : TrustLevel
  trusting_period : Nat
  unbonding_period : Nat
  max_clock_drift : Nat
  latest_height : Height
  frozen_height : Option Height
deriving DecidableEq, Repr

inductive Status where
  | Active
  | Expired
  | Frozen
  | Unknown
deriving DecidableEq, Repr

def Status.is_active : Status → Bool
  | .Active => true
  | _ => false

inductive ClientError where
  | InvalidConsensusStateTimestamp (time1 time2 : Timestamp)
  | ConsensusStateTimestampGteTrustingPeriod
      (duration_since_consensus_state trusting_period : Nat)
  | MisbehaviourTrustedValidatorHashMismatch
  | MisbehaviourHeadersChainIdMismatch
  | ClientStateNotFound (client_id : String)
  | ConsensusStateNotFound (client_id : String) (height : Height)
  | ClientNotActive (status : Status)
  | ProcessedTimeNotFound (client_id : String) (height : Height)
  | InvalidSigner
  | InvalidTrustThreshold
  | VerifierError
  | Other (description : String)
deriving DecidableEq, Repr

/-- `ContextError` wraps client errors (the only kind the embedded code
produces). -/
inductive ContextError where
  | client (e : ClientError)
deriving DecidableEq, Repr

def ContextError.toClientError : ContextError → ClientError
  | .client e => e

/-- Light-client `Options { trust_threshold, trusting_period, clock_drift }`. -/
structure LightClientOptions where
  trust_threshold : TrustLevel
  trusting_period : Nat
  clock_drift : Nat
deriving DecidableEq, Repr

/-- Modelled from the spec: `ClientState::as_light_client_options` (the
`ibc-client-tendermint-types` crate is not among the embedded files).  It
fails exactly when the trust level is not a valid fraction in `[1/3, 1]`
(spec §3: `trust_level ∈ [1/3, 1]`). -/
def TmClientState.as_light_client_options (self : TmClientState) :
    Except ClientError LightClientOptions :=
  if self.trust_level.denominator ≠ 0 ∧
      self.trust_level.numerator ≤ self.trust_level.denominator ∧
      self.trust_level.denominator ≤ 3 * self.trust_level.numerator then
    .ok ⟨self.trust_level, self.trusting_period, self.max_clock_drift⟩
  else
    .error .InvalidTrustThreshold

/-- The delegated verifier of the `tendermint-light-client-verifier` crate
(`self.0.verifier.verify_misbehaviour_header`): an external dependency of
the repository, kept abstract as a function parameter.  It receives the
untrusted header, the trusted consensus state, the options and the current
time (the `as_untrusted_block_state` / `as_trusted_block_state` conversions
are pure field projections). -/
abbrev TmVerifier :=
  TmHeader → TmConsensusState → LightClientOptions → Timestamp → Except ClientError Unit

/-- Modelled from the spec: `check_header_trusted_next_validator_set`
(ibc-client-tendermint-types, not among the embedded files): the relayer's
`trusted_next_validator_set` must hash to the stored
`trusted_cs.next_validators_hash` (spec §4.E). -/
def check_header_trusted_next_validator_set (header : TmHeader)
    (trusted_consensus_state : TmConsensusState) : Except ClientError Unit :=
  if header.trusted_next_validator_set.hash = trusted_consensus_state.next_validators_hash then
    .ok ()
  else
    .error .MisbehaviourTrustedValidatorHashMismatch

/-- `ClientState::verify_misbehaviour_header`
(ics07-tendermint `client_state/misbehaviour.rs`, lines 67–120).
The numeric conversions that can only fail out of `u64`/`i64` range
(`as_trusted_block_state`, chain-id re-parse) are total in the model;
`into_tm_time()` fails on the zero sentinel timestamp. -/
def TmClientState.verify_misbehaviour_header (self : TmClientState)
    (verifier : TmVerifier) (header : TmHeader)
    (trusted_consensus_state : TmConsensusState)
    (current_timestamp : Timestamp) : Except ClientError Unit := do
  -- ensure correctness of the trusted next validator set provided by the relayer
  check_header_trusted_next_validator_set header trusted_consensus_state
  -- ensure trusted consensus state is within trusting period
  let duration_since_consensus_state ←
    match Timestamp.duration_since current_timestamp trusted_consensus_state.timestamp with
    | some d => pure d
    | none =>
        throw (ClientError.InvalidConsensusStateTimestamp
          trusted_consensus_state.timestamp current_timestamp)
  if self.trusting_period ≤ duration_since_consensus_state then
    throw (ClientError.ConsensusStateTimestampGteTrustingPeriod
      duration_since_consensus_state self.trusting_period)
  let options ← self.as_light_client_options
  if current_timestamp = 0 then
    throw (ClientError.Other "host timestamp must not be zero")
  -- main header verification, delegated to the tendermint-light-client crate
  verifier header trusted_consensus_state options current_timestamp

/-- Testkit `MockClientState` (only the field the embedded handlers read). -/
structure MockClientState where
  latest_height : Height
deriving DecidableEq, Repr

/-- Testkit `MockConsensusState` (only the fields the embedded handlers
read). -/
structure MockConsensusState where
  timestamp : Timestamp
  root : Nat
deriving DecidableEq, Repr

/-- Testkit sum type `AnyClientState { Tendermint, Mock }`
(ibc-testkit `testapp/ibc/clients/mod.rs`). -/
inductive AnyClientState where
  | Tendermint (cs : TmClientState)
  | Mock (cs : MockClientState)
deriving DecidableEq, Repr

/-- Testkit sum type `AnyConsensusState { Tendermint, Mock }`
(ibc-testkit `testapp/ibc/clients/mod.rs`). -/
inductive AnyConsensusState where
  | Tendermint (cs : TmConsensusState)
  | Mock (cs : MockConsensusState)
deriving DecidableEq, Repr

/-- `ClientStateCommon::latest_height` through the `AnyClientState`
dispatch (each variant exposes its `latest_height` field). -/
def AnyClientState.latest_height : AnyClientState → Height
  | .Tendermint cs => cs.latest_height
  | .Mock cs => cs.latest_height

/-- The derived `TryInto<TmConsensusState>` on `AnyConsensusState`
(`derive_more::TryInto`): succeeds only on the `Tendermint` variant. -/
def AnyConsensusState.try_into_tm : AnyConsensusState → Except String TmConsensusState
  | .Tendermint cs => .ok cs
  | .Mock _ => .error "AnyConsensusState is not a TmConsensusState"

/-- `MockClientRecord` (ibc-testkit `core/client_ctx.rs`): the optional
client state and the `BTreeMap` of consensus states keyed by height. -/
structure MockClientRecord where
  client_state : Option AnyClientState
  consensus_states : List (Height × AnyConsensusState)
deriving DecidableEq, Repr

/-- The `MockIbcStore` fields the embedded impls read and write: the client
records and the two processed-metadata maps. -/
structure IbcStore where
  clients : List (String × MockClientRecord)
  client_processed_times : List ((String × Height) × Timestamp)
  client_processed_heights : List ((String × Height) × Height)
deriving DecidableEq, Repr

/-- `MockContext`: its `ibc_store` plus the host block data backing
`host_timestamp()` / `host_height()`. -/
structure MockContext where
  ibc_store : IbcStore
  host_timestamp : Timestamp
  host_height : Height
deriving DecidableEq, Repr

/-- Modelled from the spec: `ValidationContext::consensus_state` of
`MockContext` (its impl lives in testkit files outside the embedded set).
It returns the consensus state stored at `(client_id, height)` and
`ConsensusStateNotFound` when the client record or the height is absent
(spec §4.G, §7). -/
def MockContext.consensus_state (ctx : MockContext) (client_id : String)
    (height : Height) : Except ContextError AnyConsensusState :=
  match lookupA ctx.ibc_store.clients client_id with
  | none => .error (.client (.ConsensusStateNotFound client_id height))
  | some record =>
      match lookupA record.consensus_states height with
      | some cs => .ok cs
      | none => .error (.client (.ConsensusStateNotFound client_id height))

/-- Modelled from the spec: `Misbehaviour::validate_basic`
(ibc-client-tendermint-types, not among the embedded files): both headers
must name the same chain (spec §3: `header_1.chain_id == header_2.chain_id`
and both headers individually well-formed). -/
def TmMisbehaviourValidateBasic (header1 header2 : TmHeader) : Except ClientError Unit :=
  if header1.signed_header.header.chain_id = header2.signed_header.header.chain_id then
    .ok ()
  else
    .error .MisbehaviourHeadersChainIdMismatch

/-- Tendermint `Misbehaviour { client_id, header1, header2 }`. -/
structure TmMisbehaviour where
  client_id : String
  header1 : TmHeader
  header2 : TmHeader
deriving DecidableEq, Repr

def TmMisbehaviour.validate_basic (m : TmMisbehaviour) : Except ClientError Unit :=
  TmMisbehaviourValidateBasic m.header1 m.header2

/-- The block computing `trusted_consensus_state_{1,2}` inside
`ClientState::verify_misbehaviour`: read the consensus state at
`(client_id, trusted_height)` and convert it, mapping a conversion error to
`ClientError::Other`. -/
def trustedTmConsensusState (ctx : MockContext) (client_id : String)
    (trusted_height : Height) : Except ClientError TmConsensusState := do
  let consensus_state ←
    (ctx.consensus_state client_id trusted_height).mapError ContextError.toClientError
  match consensus_state.try_into_tm with
  | .ok cs => pure cs
  | .error e => throw (ClientError.Other e)

/-- `ClientState::verify_misbehaviour`
(ics07-tendermint `client_state/misbehaviour.rs`, lines 21–65), with the
generic `ClientValidationContext` instantiated by `MockContext`. -/
def TmClientState.verify_misbehaviour (self : TmClientState) (verifier : TmVerifier)
    (ctx : MockContext) (client_id : String) (misbehaviour : TmMisbehaviour) :
    Except ClientError Unit := do
  misbehaviour.validate_basic
  let header_1 := misbehaviour.header1
  let trusted_consensus_state_1 ←
    trustedTmConsensusState ctx client_id header_1.trusted_height
  let header_2 := misbehaviour.header2
  let trusted_consensus_state_2 ←
    trustedTmConsensusState ctx client_id header_2.trusted_height
  let current_timestamp := ctx.host_timestamp
  self.verify_misbehaviour_header verifier header_1 trusted_consensus_state_1 current_timestamp
  self.verify_misbehaviour_header verifier header_2 trusted_consensus_state_2 current_timestamp

/-- `ClientState::check_for_misbehaviour_misbehavior`
(ics07-tendermint `client_state/misbehaviour.rs`, lines 122–143). -/
def TmClientState.check_for_misbehaviour_misbehavior (_self : TmClientState)
    (misbehaviour : TmMisbehaviour) : Except ClientError Bool :=
  let header_1 := misbehaviour.header1
  let header_2 := misbehaviour.header2
  if header_1.height = header_2.height then
    .ok (decide (header_1.signed_header.commit.block_id.hash
      ≠ header_2.signed_header.commit.block_id.hash))
  else
    .ok (decide (header_1.signed_header.header.time ≤ header_2.signed_header.header.time))

/-- `ClientConsensusStatePath { client_id, revision_number,
revision_height }`. -/
structure ClientConsensusStatePath where
  client_id : String
  revision_number : Nat
  revision_height : Nat
deriving DecidableEq, Repr

/-- `TmValidationContext::next_consensus_state` for `MockContext`
(ibc-testkit `core/client_ctx.rs`, lines 89–121): sort the stored heights
ascending and return the consensus state at the first height strictly
greater than the query.  The `.expect("Never fails")` unwrap of the map
lookup is modelled with `Option.bind`; the key always comes from the map's
own key list. -/
def next_consensus_state (ctx : MockContext) (client_id : String) (height : Height) :
    Except ContextError (Option AnyConsensusState) :=
  match lookupA ctx.ibc_store.clients client_id with
  | none => .error (.client (.ClientStateNotFound client_id))
  | some client_record =>
      let heights := List.insertionSort (· ≤ ·)
        (client_record.consensus_states.map Prod.fst)
      match heights.find? (fun h => decide (height < h)) with
      | some h => .ok (lookupA client_record.consensus_states h)
      | none => .ok none

/-- `TmValidationContext::prev_consensus_state` for `MockContext`
(ibc-testkit `core/client_ctx.rs`, lines 123–155): sort the stored heights
descending and return the consensus state at the first height strictly
less than the query. -/
def prev_consensus_state (ctx : MockContext) (client_id : String) (height : Height) :
    Except ContextError (Option AnyConsensusState) :=
  match lookupA ctx.ibc_store.clients client_id with
  | none => .error (.client (.ClientStateNotFound client_id))
  | some client_record =>
      let heights := List.insertionSort (fun a b => b ≤ a)
        (client_record.consensus_states.map Prod.fst)
      match heights.find? (fun h => decide (h < height)) with
      | some h => .ok (lookupA client_record.consensus_states h)
      | none => .ok none

/-- `ClientValidationContext::client_update_meta` for `MockContext`
(ibc-testkit `core/client_ctx.rs`, lines 159–176): both processed maps must
hold the `(client_id, height)` key, otherwise `ProcessedTimeNotFound`. -/
def client_update_meta (ctx : MockContext) (client_id : String) (height : Height) :
    Except ContextError (Timestamp × Height) :=
  match lookupA ctx.ibc_store.client_processed_times (client_id, height),
        lookupA ctx.ibc_store.client_processed_heights (client_id, height) with
  | some time, some processed_height => .ok (time, processed_height)
  | _, _ => .error (.client (.ProcessedTimeNotFound client_id height))

/-- The record `entry(client_id).or_insert(MockClientRecord::default())`
starts from. -/
def emptyClientRecord : MockClientRecord :=
  { client_state := none, consensus_states := [] }

/-- `ClientExecutionContext::store_client_state` for `MockContext`
(ibc-testkit `core/client_ctx.rs`, lines 184–203). -/
def store_client_state (store : IbcStore) (client_id : String)
    (client_state : AnyClientState) : Except ContextError IbcStore :=
  let client_record := (lookupA store.clients client_id).getD emptyClientRecord
  let new_record := { client_record with client_state := some client_state }
  .ok { store with clients := insertA store.clients client_id new_record }

/-- `ClientExecutionContext::store_consensus_state` for `MockContext`
(ibc-testkit `core/client_ctx.rs`, lines 205–230).  The outer `Option`
models the `.expect("Never fails")` on `Height::new`, which panics exactly
when `revision_height = 0`. -/
def store_consensus_state (store : IbcStore) (path : ClientConsensusStatePath)
    (consensus_state : AnyConsensusState) : Option (Except ContextError IbcStore) :=
  let client_record := (lookupA store.clients path.client_id).getD emptyClientRecord
  match Height.new path.revision_number path.revision_height with
  | none => none
  | some height =>
      let new_record := { client_record with
        consensus_states := insertA client_record.consensus_states height consensus_state }
      some (.ok { store with clients := insertA store.clients path.client_id new_record })

/-- `ClientExecutionContext::delete_consensus_state` for `MockContext`
(ibc-testkit `core/client_ctx.rs`, lines 232–255); the outer `Option`
models the `Height::new` panic as above. -/
def delete_consensus_state (store : IbcStore) (path : ClientConsensusStatePath) :
    Option (Except ContextError IbcStore) :=
  let client_record := (lookupA store.clients path.client_id).getD emptyClientRecord
  match Height.new path.revision_number path.revision_height with
  | none => none
  | some height =>
      let new_record := { client_record with
        consensus_states := removeA client_record.consensus_states height }
      some (.ok { store with clients := insertA store.clients path.client_id new_record })

/-- `ClientExecutionContext::delete_update_meta` for `MockContext`
(ibc-testkit `core/client_ctx.rs`, lines 257–267). -/
def delete_update_meta (store : IbcStore) (client_id : String) (height : Height) :
    Except ContextError IbcStore :=
  .ok { store with
    client_processed_times := removeA store.client_processed_times (client_id, height),
    client_processed_heights := removeA store.client_processed_heights (client_id, height) }

/-- `ClientExecutionContext::store_update_meta` for `MockContext`
(ibc-testkit `core/client_ctx.rs`, lines 269–284). -/
def store_update_meta (store : IbcStore) (client_id : String) (height : Height)
    (host_timestamp : Timestamp) (host_height : Height) : Except ContextError IbcStore :=
  .ok { store with
    client_processed_times := insertA store.client_processed_times (client_id, height) host_timestamp,
    client_processed_heights := insertA store.client_processed_heights (client_id, height) host_height }

/-- `ConsensusState::root()` through the `AnyConsensusState` dispatch. -/
def AnyConsensusState.root : AnyConsensusState → Nat
  | .Tendermint cs => cs.root
  | .Mock cs => cs.root

/-- The protobuf-style wire envelope `Any { type_url, value }`; payload
bytes are a `List Nat`. -/
structure Any where
  type_url : String
  value : List Nat
deriving DecidableEq, Repr

/-- `MsgUpgradeClient`: upgraded states still in their wire envelopes plus
the two membership proofs (kept as raw bytes). -/
structure MsgUpgradeClient where
  client_id : String
  upgraded_client_state : Any
  upgraded_consensus_state : Any
  proof_upgrade_client : List Nat
  proof_upgrade_consensus_state : List Nat
  signer : String
deriving DecidableEq, Repr

/-- Modelled from the spec: `ValidationContext::client_state` of
`MockContext` (its impl lives in testkit files outside the embedded set).
It returns the stored client state and `ClientStateNotFound` when the
record or the state is absent (spec §4.G, §7). -/
def MockContext.client_state (ctx : MockContext) (client_id : String) :
    Except ContextError AnyClientState :=
  match lookupA ctx.ibc_store.clients client_id with
  | none => .error (.client (.ClientStateNotFound client_id))
  | some record =>
      match record.client_state with
      | some cs => .ok cs
      | none => .error (.client (.ClientStateNotFound client_id))

/-- The host-supplied capabilities `upgrade_client::validate` dispatches
into: `validate_message_signer` (MockContext), `ClientStateValidation::
status` and `ClientStateCommon::verify_upgrade_client` (per-client impls).
None of them is among the embedded files, so they stay abstract. -/
structure UpgradeClientEnv where
  validate_message_signer : String → Except ContextError Unit
  status : AnyClientState → MockContext → String → Except ContextError Status
  verify_upgrade_client :
    AnyClientState → Any → Any → List Nat → List Nat → Nat → Except ContextError Unit
  client_type : AnyClientState → String

/-- `upgrade_client::validate`
(ics02-client `handler/upgrade_client.rs`, lines 16–60).  The context is
taken immutably (`&Ctx`): the function can only read it. -/
def upgrade_client_validate (env : UpgradeClientEnv) (ctx : MockContext)
    (msg : MsgUpgradeClient) : Except ContextError Unit := do
  env.validate_message_signer msg.signer
  -- Read the current latest client state from the host chain store.
  let old_client_state ← ctx.client_state msg.client_id
  -- Check if the client is active.
  let status ← env.status old_client_state ctx msg.client_id
  if ¬ status.is_active then
    throw (ContextError.client (.ClientNotActive status))
  -- Read the latest consensus state from the host chain store; any failure
  -- is mapped to ConsensusStateNotFound at the client's latest height.
  let old_consensus_state ←
    match ctx.consensus_state msg.client_id old_client_state.latest_height with
    | .ok cs => pure cs
    | .error _ =>
        throw (ContextError.client
          (.ConsensusStateNotFound msg.client_id old_client_state.latest_height))
  -- Validate the upgraded states and verify proofs against the root.
  env.verify_upgrade_client old_client_state msg.upgraded_client_state
    msg.upgraded_consensus_state msg.proof_upgrade_client
    msg.proof_upgrade_consensus_state old_consensus_state.root

inductive IbcEvent where
  | MessageClient
  | UpgradeClient (client_id : String) (client_type : String) (latest_height : Height)
deriving DecidableEq, Repr

/-- What one run of a write-phase handler leaves behind: the error if any,
the store the `&mut` context holds afterwards, and the emitted events. -/
structure ExecOutcome where
  err : Option ContextError
  store : IbcStore
  events : List IbcEvent
deriving DecidableEq, Repr

/-- `ClientStateExecution::update_state_on_upgrade` through the
`AnyClientState` dispatch (per-client impls, outside the embedded set):
from the store it may write to, it returns the error if any, the store it
leaves behind, and on success the new latest height. -/
abbrev UpdateOnUpgradeFn :=
  IbcStore → String → Any → Any → AnyClientState → Option ContextError × IbcStore × Height

/-- `upgrade_client::execute`
(ics02-client `handler/upgrade_client.rs`, lines 62–86), with mutation of
the `&mut` context threaded explicitly: an error leaves whatever store the
failing step produced.  `MockContext::emit_ibc_event` records the event and
never fails (modelled from the spec: the emitter is outside the embedded
set). -/
def upgrade_client_execute (env : UpgradeClientEnv)
    (update_state_on_upgrade : UpdateOnUpgradeFn) (ctx : MockContext)
    (msg : MsgUpgradeClient) : ExecOutcome :=
  match MockContext.client_state ctx msg.client_id with
  | .error e => ⟨some e, ctx.ibc_store, []⟩
  | .ok old_client_state =>
      match update_state_on_upgrade ctx.ibc_store msg.client_id
          msg.upgraded_client_state msg.upgraded_consensus_state old_client_state with
      | (some e, store1, _) => ⟨some e, store1, []⟩
      | (none, store1, latest_height) =>
          ⟨none, store1,
            [IbcEvent.MessageClient,
             IbcEvent.UpgradeClient msg.client_id
               (env.client_type old_client_state) latest_height]⟩

/-- The host's protocol around the two phases (spec §4.F): `validate` runs
first against the unchanged context; only when it passes does `execute`
run.  A validation error therefore leaves the store untouched with no
events. -/
def upgrade_client_process (env : UpgradeClientEnv)
    (update_state_on_upgrade : UpdateOnUpgradeFn) (ctx : MockContext)
    (msg : MsgUpgradeClient) : ExecOutcome :=
  match upgrade_client_validate env ctx msg with
  | .error e => ⟨some e, ctx.ibc_store, []⟩
  | .ok _ => upgrade_client_execute env update_state_on_upgrade ctx msg

def TENDERMINT_CLIENT_STATE_TYPE_URL : String :=
  "/ibc.lightclients.tendermint.v1.ClientState"

def TENDERMINT_CONSENSUS_STATE_TYPE_URL : String :=
  "/ibc.lightclients.tendermint.v1.ConsensusState"

def MOCK_CLIENT_STATE_TYPE_URL : String := "/ibc.mock.ClientState"

def MOCK_CONSENSUS_STATE_TYPE_URL : String := "/ibc.mock.ConsensusState"

/-- `TryFrom<Any> for AnyClientState`
(ibc-testkit `testapp/ibc/clients/mod.rs`, lines 35–49).  The per-variant
protobuf codecs (`TmClientState::try_from(Any)`, `MockClientState::
try_from(Any)`) live outside the embedded files and are taken as function
parameters. -/
def AnyClientState.try_from
    (tm_dec : Any → Except ClientError TmClientState)
    (mock_dec : Any → Except ClientError MockClientState)
    (raw : Any) : Except ClientError AnyClientState :=
  if raw.type_url = TENDERMINT_CLIENT_STATE_TYPE_URL then
    (tm_dec raw).map AnyClientState.Tendermint
  else if raw.type_url = MOCK_CLIENT_STATE_TYPE_URL then
    (mock_dec raw).map AnyClientState.Mock
  else
    .error (.Other "failed to deserialize message")

/-- `From<AnyClientState> for Any`
(ibc-testkit `testapp/ibc/clients/mod.rs`, lines 51–58), the per-variant
encoders as parameters. -/
def AnyClientState.into_any
    (tm_enc : TmClientState → Any) (mock_enc : MockClientState → Any) :
    AnyClientState → Any
  | .Tendermint cs => tm_enc cs
  | .Mock cs => mock_enc cs

/-- `TryFrom<Any> for AnyConsensusState`
(ibc-testkit `testapp/ibc/clients/mod.rs`, lines 68–82). -/
def AnyConsensusState.try_from
    (tm_dec : Any → Except ClientError TmConsensusState)
    (mock_dec : Any → Except ClientError MockConsensusState)
    (raw : Any) : Except ClientError AnyConsensusState :=
  if raw.type_url = TENDERMINT_CONSENSUS_STATE_TYPE_URL then
    (tm_dec raw).map AnyConsensusState.Tendermint
  else if raw.type_url = MOCK_CONSENSUS_STATE_TYPE_URL then
    (mock_dec raw).map AnyConsensusState.Mock
  else
    .error (.Other "failed to deserialize message")

/-- `From<AnyConsensusState> for Any`
(ibc-testkit `testapp/ibc/clients/mod.rs`, lines 84–91). -/
def AnyConsensusState.into_any
    (tm_enc : TmConsensusState → Any) (mock_enc : MockConsensusState → Any) :
    AnyConsensusState → Any
  | .Tendermint cs => tm_enc cs
  | .Mock cs => mock_enc cs

/-- The wire codec of one concrete payload type at its registered
`type_url`, together with the spec's round-trip laws (spec §6, §8:
serialise(deserialise(x)) = x; each variant's envelope carries its
registered url).  The concrete protobuf codecs are outside the embedded
files; every codec satisfying these laws is covered. -/
structure WireCodec (α : Type) (url : String) where
  enc : α → Any
  dec : Any → Except ClientError α
  enc_url : ∀ x, (enc x).type_url = url
  dec_enc : ∀ x, dec (enc x) = .ok x
  enc_dec : ∀ a x, dec a = .ok x → enc x = a

theorem Height.le_refl' (a : Height) : a ≤ a := Or.inr ⟨rfl, Nat.le_refl _⟩

/-- In a list sorted ascending, `find?` with the predicate `q < ·` returns
exactly the least element strictly greater than `q`. -/
theorem find_first_gt_of_sorted (l : List Height)
    (hs : List.Sorted (· ≤ ·) l) (q k : Height) :
    l.find? (fun x => decide (q < x)) = some k ↔
      (k ∈ l ∧ q < k ∧ ∀ k' ∈ l, q < k' → k ≤ k') := by
  induction l with
  | nil => simp
  | cons x t ih =>
      have hhead : ∀ b ∈ t, x ≤ b := (List.pairwise_cons.mp hs).1
      have htail : List.Sorted (· ≤ ·) t := (List.pairwise_cons.mp hs).2
      by_cases hqx : q < x
      · simp only [List.find?_cons, decide_eq_true hqx, Option.some.injEq]
        constructor
        · rintro rfl
          refine ⟨List.mem_cons_self _ _, hqx, ?_⟩
          intro k' hk' _
          rcases List.mem_cons.mp hk' with rfl | hm
          · exact Height.le_refl' _
          · exact hhead k' hm
        · rintro ⟨hk, _, hmin⟩
          have h1 : k ≤ x := hmin x (List.mem_cons_self _ _) hqx
          have h2 : x ≤ k := by
            rcases List.mem_cons.mp hk with rfl | hm
            · exact Height.le_refl' _
            · exact hhead k hm
          exact Height.le_antisymm' h2 h1
      · have hd : decide (q < x) = false := decide_eq_false hqx
        simp only [List.find?_cons, hd, ih htail]
        constructor
        · rintro ⟨hk, hqk, hmin⟩
          refine ⟨List.mem_cons_of_mem _ hk, hqk, ?_⟩
          intro k' hk' hq'
          rcases List.mem_cons.mp hk' with rfl | hm
          · exact absurd hq' hqx
          · exact hmin k' hm hq'
        · rintro ⟨hk, hqk, hmin⟩
          have hkt : k ∈ t := by
            rcases List.mem_cons.mp hk with rfl | hm
            · exact absurd hqk hqx
            · exact hm
          exact ⟨hkt, hqk, fun k' hm hq' => hmin k' (List.mem_cons_of_mem _ hm) hq'⟩

/-- In a list sorted descending, `find?` with the predicate `· < q` returns
exactly the greatest element strictly less than `q`. -/
theorem find_first_lt_of_sorted_desc (l : List Height)
    (hs : List.Sorted (fun a b => b ≤ a) l) (q k : Height) :
    l.find? (fun x => decide (x < q)) = some k ↔
      (k ∈ l ∧ k < q ∧ ∀ k' ∈ l, k' < q → k' ≤ k) := by
  induction l with
  | nil => simp
  | cons x t ih =>
      have hhead : ∀ b ∈ t, b ≤ x := (List.pairwise_cons.mp hs).1
      have htail : List.Sorted (fun a b => b ≤ a) t := (List.pairwise_cons.mp hs).2
      by_cases hxq : x < q
      · simp only [List.find?_cons, decide_eq_true hxq, Option.some.injEq]
        constructor
        · rintro rfl
          refine ⟨List.mem_cons_self _ _, hxq, ?_⟩
          intro k' hk' _
          rcases List.mem_cons.mp hk' with rfl | hm
          · exact Height.le_refl' _
          · exact hhead k' hm
        · rintro ⟨hk, _, hmin⟩
          have h1 : x ≤ k := hmin x (List.mem_cons_self _ _) hxq
          have h2 : k ≤ x := by
            rcases List.mem_cons.mp hk with rfl | hm
            · exact Height.le_refl' _
            · exact hhead k hm
          exact Height.le_antisymm' h1 h2
      · have hd : decide (x < q) = false := decide_eq_false hxq
        simp only [List.find?_cons, hd, ih htail]
        constructor
        · rintro ⟨hk, hkq, hmin⟩
          refine ⟨List.mem_cons_of_mem _ hk, hkq, ?_⟩
          intro k' hk' hq'
          rcases List.mem_cons.mp hk' with rfl | hm
          · exact absurd hq' hxq
          · exact hmin k' hm hq'
        · rintro ⟨hk, hkq, hmin⟩
          have hkt : k ∈ t := by
            rcases List.mem_cons.mp hk with rfl | hm
            · exact absurd hkq hxq
            · exact hm
          exact ⟨hkt, hkq, fun k' hm hq' => hmin k' (List.mem_cons_of_mem _ hm) hq'⟩

instance : DecidableRel (fun (a b : Height) => b ≤ a) := fun a b =>
  inferInstanceAs (Decidable (b ≤ a))

/-- C4: for a client with stored consensus-state heights `S`,
`next_consensus_state` returns the state stored at the least height of `S`
strictly greater than the query (`Ok none` when there is none), and
`prev_consensus_state` the state at the greatest height strictly less than
the query (`Ok none` when there is none); the state stored at the query
height itself is never returned. -/
theorem next_prev_consensus_state_strictly_adjacent
    (ctx : MockContext) (client_id : String) (client_record : MockClientRecord)
    (q : Height)
    (hrec : lookupA ctx.ibc_store.clients client_id = some client_record) :
    ((∀ k ∈ client_record.consensus_states.map Prod.fst, ¬ q < k) →
        next_consensus_state ctx client_id q = .ok none) ∧
    (∀ k ∈ client_record.consensus_states.map Prod.fst, q < k →
        (∀ k' ∈ client_record.consensus_states.map Prod.fst, q < k' → k ≤ k') →
        ∃ v, lookupA client_record.consensus_states k = some v ∧
          next_consensus_state ctx client_id q = .ok (some v)) ∧
    ((∀ k ∈ client_record.consensus_states.map Prod.fst, ¬ k < q) →
        prev_consensus_state ctx client_id q = .ok none) ∧
    (∀ k ∈ client_record.consensus_states.map Prod.fst, k < q →
        (∀ k' ∈ client_record.consensus_states.map Prod.fst, k' < q → k' ≤ k) →
        ∃ v, lookupA client_record.consensus_states k = some v ∧
          prev_consensus_state ctx client_id q = .ok (some v)) := by
  have hsortA := List.sorted_insertionSort (α := Height) (· ≤ ·)
    (client_record.consensus_states.map Prod.fst)
  have hpermA := List.perm_insertionSort (α := Height) (· ≤ ·)
    (client_record.consensus_states.map Prod.fst)
  have hsortD := List.sorted_insertionSort (α := Height) (fun a b => b ≤ a)
    (client_record.consensus_states.map Prod.fst)
  have hpermD := List.perm_insertionSort (α := Height) (fun a b => b ≤ a)
    (client_record.consensus_states.map Prod.fst)
  refine ⟨?_, ?_, ?_, ?_⟩
  · intro hnone
    have hfind : (List.insertionSort (· ≤ ·)
        (client_record.consensus_states.map Prod.fst)).find?
          (fun h => decide (q < h)) = none := by
      refine List.find?_eq_none.mpr ?_
      intro x hx
      simp only [decide_eq_true_eq]
      exact hnone x (hpermA.mem_iff.mp hx)
    simp [next_consensus_state, hrec, hfind]
  · intro k hk hqk hmin
    have hfind : (List.insertionSort (· ≤ ·)
        (client_record.consensus_states.map Prod.fst)).find?
          (fun h => decide (q < h)) = some k :=
      (find_first_gt_of_sorted _ hsortA q k).mpr
        ⟨hpermA.mem_iff.mpr hk, hqk,
          fun k' hk' hq' => hmin k' (hpermA.mem_iff.mp hk') hq'⟩
    have hsome : (lookupA client_record.consensus_states k).isSome :=
      (lookupA_isSome_iff_mem_keys _ _).mpr hk
    obtain ⟨v, hv⟩ := Option.isSome_iff_exists.mp hsome
    exact ⟨v, hv, by simp [next_consensus_state, hrec, hfind, hv]⟩
  · intro hnone
    have hfind : (List.insertionSort (fun a b => b ≤ a)
        (client_record.consensus_states.map Prod.fst)).find?
          (fun h => decide (h < q)) = none := by
      refine List.find?_eq_none.mpr ?_
      intro x hx
      simp only [decide_eq_true_eq]
      exact hnone x (hpermD.mem_iff.mp hx)
    simp [prev_consensus_state, hrec, hfind]
  · intro k hk hkq hmin
    have hfind : (List.insertionSort (fun a b => b ≤ a)
        (client_record.consensus_states.map Prod.fst)).find?
          (fun h => decide (h < q)) = some k :=
      (find_first_lt_of_sorted_desc _ hsortD q k).mpr
        ⟨hpermD.mem_iff.mpr hk, hkq,
          fun k' hk' hq' => hmin k' (hpermD.mem_iff.mp hk') hq'⟩
    have hsome : (lookupA client_record.consensus_states k).isSome :=
      (lookupA_isSome_iff_mem_keys _ _).mpr hk
    obtain ⟨v, hv⟩ := Option.isSome_iff_exists.mp hsome
    exact ⟨v, hv, by simp [prev_consensus_state, hrec, hfind, hv]⟩

/-- Sample consensus states and a mock context with states stored at
heights (0,1) and (0,3). -/
def csLow : AnyConsensusState := .Tendermint ⟨10, 100, 7⟩

def csHigh : AnyConsensusState := .Tendermint ⟨20, 200, 7⟩

def recW : MockClientRecord :=
  ⟨none, [(⟨0, 1⟩, csLow), (⟨0, 3⟩, csHigh)]⟩

def ctxW : MockContext :=
  ⟨⟨[("07-tendermint-0", recW)], [], []⟩, 100, ⟨0, 5⟩⟩

/-- C4 witness: querying at height (0,2) between the stored heights (0,1)
and (0,3) returns the state at (0,3) as next and the one at (0,1) as
previous. -/
theorem next_prev_consensus_state_strictly_adjacent_witness :
    (∃ v, lookupA recW.consensus_states ⟨0, 3⟩ = some v ∧
        next_consensus_state ctxW "07-tendermint-0" ⟨0, 2⟩ = .ok (some v)) ∧
    (∃ v, lookupA recW.consensus_states ⟨0, 1⟩ = some v ∧
        prev_consensus_state ctxW "07-tendermint-0" ⟨0, 2⟩ = .ok (some v)) := by
  have H := next_prev_consensus_state_strictly_adjacent ctxW "07-tendermint-0" recW
    ⟨0, 2⟩ (by rfl)
  constructor
  · refine H.2.1 ⟨0, 3⟩ (by decide) (by decide) ?_
    intro k' hk' hlt
    have hk2 : k' = (⟨0, 1⟩ : Height) ∨ k' = (⟨0, 3⟩ : Height) := by
      simpa [recW, csLow, csHigh] using hk'
    rcases hk2 with rfl | rfl
    · exact absurd hlt (by decide)
    · exact Height.le_refl' _
  · refine H.2.2.2 ⟨0, 1⟩ (by decide) (by decide) ?_
    intro k' hk' hlt
    have hk2 : k' = (⟨0, 1⟩ : Height) ∨ k' = (⟨0, 3⟩ : Height) := by
      simpa [recW, csLow, csHigh] using hk'
    rcases hk2 with rfl | rfl
    · exact Height.le_refl' _
    · exact absurd hlt (by decide)

/-- The store with one client record replaced (what the `&mut` entry-insert
of the mock execution context leaves behind). -/
def storeWithRecord (store : IbcStore) (client_id : String)
    (record : MockClientRecord) : IbcStore :=
  { store with clients := insertA store.clients client_id record }

/-- C9: `store_consensus_state` and `delete_consensus_state` never return
`Err` (for any representable height, i.e. `revision_height ≠ 0`, they do
not even panic); on a path whose client id has no stored record they
silently create the record — `store` leaves it holding exactly the new
state, `delete` leaves it empty — instead of reporting an unknown
client. -/
theorem store_delete_consensus_state_never_err
    (store : IbcStore) (path : ClientConsensusStatePath) (cs : AnyConsensusState)
    (hrh : path.revision_height ≠ 0) :
    (∃ st1, store_consensus_state store path cs = some (.ok st1)) ∧
    (∃ st2, delete_consensus_state store path = some (.ok st2)) ∧
    (lookupA store.clients path.client_id = none →
      store_consensus_state store path cs =
        some (.ok (storeWithRecord store path.client_id
          ⟨none, [(⟨path.revision_number, path.revision_height⟩, cs)]⟩)) ∧
      delete_consensus_state store path =
        some (.ok (storeWithRecord store path.client_id ⟨none, []⟩))) := by
  have hh : Height.new path.revision_number path.revision_height =
      some ⟨path.revision_number, path.revision_height⟩ := by
    simp [Height.new, hrh]
  refine ⟨?_, ?_, ?_⟩
  · exact ⟨_, by simp only [store_consensus_state, hh]; rfl⟩
  · exact ⟨_, by simp only [delete_consensus_state, hh]; rfl⟩
  · intro hcl
    constructor
    · simp only [store_consensus_state, hh, hcl, Option.getD_none, emptyClientRecord,
        insertA, storeWithRecord]
    · simp only [delete_consensus_state, hh, hcl, Option.getD_none, emptyClientRecord,
        removeA, storeWithRecord]

/-- C9 witness: on the empty store and the path `("client-x", 0, 7)` both
operations return `Ok`, and the freshly created record holds exactly the
stored state (resp. nothing). -/
theorem store_delete_consensus_state_never_err_witness :
    (∃ st1, store_consensus_state ⟨[], [], []⟩ ⟨"client-x", 0, 7⟩ csLow = some (.ok st1)) ∧
    (∃ st2, delete_consensus_state ⟨[], [], []⟩ ⟨"client-x", 0, 7⟩ = some (.ok st2)) ∧
    (lookupA (IbcStore.clients ⟨[], [], []⟩) "client-x" = none →
      store_consensus_state ⟨[], [], []⟩ ⟨"client-x", 0, 7⟩ csLow =
        some (.ok (storeWithRecord ⟨[], [], []⟩ "client-x"
          ⟨none, [(⟨0, 7⟩, csLow)]⟩)) ∧
      delete_consensus_state ⟨[], [], []⟩ ⟨"client-x", 0, 7⟩ =
        some (.ok (storeWithRecord ⟨[], [], []⟩ "client-x" ⟨none, []⟩))) :=
  store_delete_consensus_state_never_err ⟨[], [], []⟩ ⟨"client-x", 0, 7⟩ csLow
    (by decide)

/-- C10: `client_update_meta` returns `Ok((time, height))` exactly when
both processed maps hold the key `(client_id, height)`; a missing entry in
either map yields `ProcessedTimeNotFound`. -/
theorem client_update_meta_needs_both_maps
    (ctx : MockContext) (client_id : String) (height : Height) :
    (∀ t ph, client_update_meta ctx client_id height = .ok (t, ph) ↔
       lookupA ctx.ibc_store.client_processed_times (client_id, height) = some t ∧
       lookupA ctx.ibc_store.client_processed_heights (client_id, height) = some ph) ∧
    ((lookupA ctx.ibc_store.client_processed_times (client_id, height) = none ∨
      lookupA ctx.ibc_store.client_processed_heights (client_id, height) = none) →
       client_update_meta ctx client_id height =
         .error (.client (.ProcessedTimeNotFound client_id height))) := by
  cases ht : lookupA ctx.ibc_store.client_processed_times (client_id, height) <;>
    cases hh : lookupA ctx.ibc_store.client_processed_heights (client_id, height) <;>
      simp [client_update_meta, ht, hh, and_comm, eq_comm]

/-- A Tendermint header on chain `testchain-1` with the given raw height,
block time and commit block-id hash; the relayer-supplied trusted next
validator set hashes to `7`. -/
def mkHeader (heightRaw time hash : Nat) : TmHeader :=
  { signed_header :=
      { header := { chain_id := ⟨"testchain", 1⟩, height := heightRaw, time := time },
        commit := { block_id := { hash := hash } } },
    validator_set := ⟨9⟩,
    trusted_height := ⟨1, 1⟩,
    trusted_next_validator_set := ⟨7⟩ }

/-- A Tendermint client state for `testchain-1` with trust level 1/3 and a
trusting period of 1000 ns. -/
def clientStateW : TmClientState :=
  { chain_id := ⟨"testchain", 1⟩, trust_level := ⟨1, 3⟩, trusting_period := 1000,
    unbonding_period := 2000, max_clock_drift := 5, latest_height := ⟨1, 10⟩,
    frozen_height := none }

/-- A trusted consensus state: time 5, root 100, next validators hash 7. -/
def trustedW : TmConsensusState := ⟨5, 100, 7⟩

/-- A delegated verifier that accepts everything: it makes "every other
check passes" concrete. -/
def verifierOk : TmVerifier := fun _ _ _ _ => .ok ()

/-- C2 counterexample: with `header1` at height (1,1) and `header2` at
height (1,2) — so `header1.height < header2.height` — and equal times,
`check_for_misbehaviour_misbehavior` returns `Ok(true)`, where the claim
says every `h1.height < h2.height` case reports no evidence. -/
theorem check_for_misbehaviour_lower_height_counterexample :
    TmClientState.check_for_misbehaviour_misbehavior clientStateW
        ⟨"07-tendermint-0", mkHeader 1 5 0, mkHeader 2 5 0⟩ = .ok true ∧
    (mkHeader 1 5 0).height < (mkHeader 2 5 0).height :=
  ⟨rfl, by decide⟩

/-- C2 as amended: evidence is reported exactly when the heights are equal
with different commit block hashes, or the heights are *different* (in
either direction — the code never compares them for order) with
`header1.time ≤ header2.time`. -/
theorem check_for_misbehaviour_misbehavior_rule
    (self : TmClientState) (m : TmMisbehaviour) :
    (self.check_for_misbehaviour_misbehavior m = .ok true ↔
      ((m.header1.height = m.header2.height ∧
          m.header1.signed_header.commit.block_id.hash ≠
            m.header2.signed_header.commit.block_id.hash) ∨
        (m.header1.height ≠ m.header2.height ∧
          m.header1.signed_header.header.time ≤ m.header2.signed_header.header.time))) ∧
    (self.check_for_misbehaviour_misbehavior m = .ok false ↔
      ¬ ((m.header1.height = m.header2.height ∧
          m.header1.signed_header.commit.block_id.hash ≠
            m.header2.signed_header.commit.block_id.hash) ∨
        (m.header1.height ≠ m.header2.height ∧
          m.header1.signed_header.header.time ≤ m.header2.signed_header.header.time))) := by
  unfold TmClientState.check_for_misbehaviour_misbehavior
  by_cases heq : m.header1.height = m.header2.height
  · simp [heq]
  · simp [heq]

/-- C1 counterexample: with `now - trusted.time = trusting_period` (1005 −
5 = 1000) and every other check passing — matching trusted validator hash,
valid trust level, accepting delegated verifier, nonzero timestamp —
`verify_misbehaviour_header` returns the trusting-period error, where the
claim says it still returns `Ok`; one nanosecond earlier the very same
call succeeds. -/
theorem verify_misbehaviour_header_expired_counterexample :
    TmClientState.verify_misbehaviour_header clientStateW verifierOk
        (mkHeader 11 900 3) trustedW 1005 =
      .error (.ConsensusStateTimestampGteTrustingPeriod 1000 1000) ∧
    TmClientState.verify_misbehaviour_header clientStateW verifierOk
        (mkHeader 11 900 3) trustedW 1004 = .ok () :=
  ⟨rfl, rfl⟩

/-- C1 as amended: `verify_misbehaviour_header` enforces the trusting
period exactly like an ordinary update — whenever the trusted next
validator set matches and `now - trusted.time ≥ trusting_period`, it
returns `ConsensusStateTimestampGteTrustingPeriod` rather than `Ok`. -/
theorem verify_misbehaviour_header_enforces_trusting_period
    (self : TmClientState) (verifier : TmVerifier) (header : TmHeader)
    (trusted : TmConsensusState) (now : Timestamp)
    (hvs : header.trusted_next_validator_set.hash = trusted.next_validators_hash)
    (hle : trusted.timestamp ≤ now)
    (hexp : self.trusting_period ≤ now - trusted.timestamp) :
    self.verify_misbehaviour_header verifier header trusted now =
      .error (.ConsensusStateTimestampGteTrustingPeriod (now - trusted.timestamp)
        self.trusting_period) := by
  simp [TmClientState.verify_misbehaviour_header, check_header_trusted_next_validator_set,
    Timestamp.duration_since, hvs, hle, hexp, bind, Except.bind, throw, throwThe,
    MonadExceptOf.throw, pure, Except.pure]

/-- C1 witness for the amended theorem: the expiry boundary input above. -/
theorem verify_misbehaviour_header_enforces_trusting_period_witness :
    TmClientState.verify_misbehaviour_header clientStateW verifierOk
        (mkHeader 12 901 4) trustedW 1006 =
      .error (.ConsensusStateTimestampGteTrustingPeriod 1001 1000) :=
  verify_misbehaviour_header_enforces_trusting_period clientStateW verifierOk
    (mkHeader 12 901 4) trustedW 1006 rfl (by decide) (by decide)

theorem exceptBind_eq_ok {ε α β : Type} {x : Except ε α} {f : α → Except ε β} {b : β}
    (h : x >>= f = .ok b) : ∃ a, x = .ok a ∧ f a = .ok b := by
  cases x with
  | error e => simp [bind, Except.bind] at h
  | ok a => exact ⟨a, rfl, by simpa [bind, Except.bind] using h⟩

theorem mapError_eq_ok {ε ε' α : Type} {f : ε → ε'} {x : Except ε α} {a : α}
    (h : x.mapError f = .ok a) : x = .ok a := by
  cases x with
  | error e => simp [Except.mapError] at h
  | ok v => simpa [Except.mapError] using h

/-- `trustedTmConsensusState` succeeds exactly when the stored consensus
state exists and is the Tendermint variant. -/
theorem trustedTmConsensusState_eq_ok {ctx : MockContext} {client_id : String}
    {h : Height} {t : TmConsensusState} :
    trustedTmConsensusState ctx client_id h = .ok t ↔
      MockContext.consensus_state ctx client_id h = .ok (.Tendermint t) := by
  unfold trustedTmConsensusState
  cases hc : MockContext.consensus_state ctx client_id h with
  | error e =>
      simp [Except.mapError, bind, Except.bind]
  | ok acs =>
      cases acs <;>
        simp [Except.mapError, bind, Except.bind, AnyConsensusState.try_into_tm,
          pure, Except.pure, throw, throwThe, MonadExceptOf.throw]

/-- C3: `verify_misbehaviour` returns `Ok` only when, for each of the two
headers, the consensus state stored at `(client_id, trusted_height)`
exists and is a Tendermint consensus state, and the header passes
`verify_misbehaviour_header` against it at the host timestamp. -/
theorem verify_misbehaviour_ok_requires
    (self : TmClientState) (verifier : TmVerifier) (ctx : MockContext)
    (client_id : String) (m : TmMisbehaviour)
    (hok : self.verify_misbehaviour verifier ctx client_id m = .ok ()) :
    ∃ t1 t2,
      MockContext.consensus_state ctx client_id m.header1.trusted_height =
        .ok (.Tendermint t1) ∧
      MockContext.consensus_state ctx client_id m.header2.trusted_height =
        .ok (.Tendermint t2) ∧
      self.verify_misbehaviour_header verifier m.header1 t1 ctx.host_timestamp = .ok () ∧
      self.verify_misbehaviour_header verifier m.header2 t2 ctx.host_timestamp = .ok () := by
  unfold TmClientState.verify_misbehaviour at hok
  obtain ⟨u0, hval, hok⟩ := exceptBind_eq_ok hok
  obtain ⟨t1, ht1, hok⟩ := exceptBind_eq_ok hok
  obtain ⟨t2, ht2, hok⟩ := exceptBind_eq_ok hok
  obtain ⟨u1, hv1, hv2⟩ := exceptBind_eq_ok hok
  cases u1
  exact ⟨t1, t2, trustedTmConsensusState_eq_ok.mp ht1,
    trustedTmConsensusState_eq_ok.mp ht2, hv1, hv2⟩

/-- A context holding a Tendermint consensus state for client
`07-tendermint-0` at height (1,1), at host time 100. -/
def ctxC3 : MockContext :=
  ⟨⟨[("07-tendermint-0", ⟨none, [(⟨1, 1⟩, .Tendermint trustedW)]⟩)], [], []⟩, 100, ⟨0, 3⟩⟩

/-- C3 witness: a concrete misbehaviour message whose two headers verify
against the stored trusted consensus state. -/
theorem verify_misbehaviour_ok_requires_witness :
    ∃ t1 t2,
      MockContext.consensus_state ctxC3 "07-tendermint-0"
          (TmMisbehaviour.header1 ⟨"07-tendermint-0", mkHeader 11 30 1, mkHeader 11 30 2⟩).trusted_height =
        .ok (.Tendermint t1) ∧
      MockContext.consensus_state ctxC3 "07-tendermint-0"
          (TmMisbehaviour.header2 ⟨"07-tendermint-0", mkHeader 11 30 1, mkHeader 11 30 2⟩).trusted_height =
        .ok (.Tendermint t2) ∧
      TmClientState.verify_misbehaviour_header clientStateW verifierOk
          (TmMisbehaviour.header1 ⟨"07-tendermint-0", mkHeader 11 30 1, mkHeader 11 30 2⟩) t1
          ctxC3.host_timestamp = .ok () ∧
      TmClientState.verify_misbehaviour_header clientStateW verifierOk
          (TmMisbehaviour.header2 ⟨"07-tendermint-0", mkHeader 11 30 1, mkHeader 11 30 2⟩) t2
          ctxC3.host_timestamp = .ok () :=
  verify_misbehaviour_ok_requires clientStateW verifierOk ctxC3 "07-tendermint-0"
    ⟨"07-tendermint-0", mkHeader 11 30 1, mkHeader 11 30 2⟩ rfl

/-- C5: once the signer is accepted and the client state is loaded,
`upgrade_client::validate` rejects a non-`Active` client with
`ClientNotActive{status}`; with an `Active` client it maps any failure to
read the consensus state at the client's latest height to
`ConsensusStateNotFound{client_id, latest_height}`; and only when that
consensus state exists does it proceed to `verify_upgrade_client` against
the state's commitment root. -/
theorem upgrade_client_validate_spec
    (env : UpgradeClientEnv) (ctx : MockContext) (msg : MsgUpgradeClient)
    (cs : AnyClientState) (st : Status)
    (hsig : env.validate_message_signer msg.signer = .ok ())
    (hcs : MockContext.client_state ctx msg.client_id = .ok cs)
    (hst : env.status cs ctx msg.client_id = .ok st) :
    (st.is_active = false →
        upgrade_client_validate env ctx msg =
          .error (.client (.ClientNotActive st))) ∧
    (∀ e, st.is_active = true →
        MockContext.consensus_state ctx msg.client_id cs.latest_height = .error e →
        upgrade_client_validate env ctx msg =
          .error (.client (.ConsensusStateNotFound msg.client_id cs.latest_height))) ∧
    (∀ ocs, st.is_active = true →
        MockContext.consensus_state ctx msg.client_id cs.latest_height = .ok ocs →
        upgrade_client_validate env ctx msg =
          env.verify_upgrade_client cs msg.upgraded_client_state
            msg.upgraded_consensus_state msg.proof_upgrade_client
            msg.proof_upgrade_consensus_state ocs.root) := by
  refine ⟨?_, ?_, ?_⟩
  · intro hina
    simp [upgrade_client_validate, hsig, hcs, hst, hina, bind, Except.bind, pure,
      Except.pure, throw, throwThe, MonadExceptOf.throw]
  · intro e hact hnone
    simp [upgrade_client_validate, hsig, hcs, hst, hact, hnone, bind, Except.bind, pure,
      Except.pure, throw, throwThe, MonadExceptOf.throw]
  · intro ocs hact hsome
    simp [upgrade_client_validate, hsig, hcs, hst, hact, hsome, bind, Except.bind, pure,
      Except.pure, throw, throwThe, MonadExceptOf.throw]

/-- An environment whose signer check and proof verification accept, and
whose client reports `Frozen` status. -/
def envFrozen : UpgradeClientEnv :=
  { validate_message_signer := fun _ => .ok (),
    status := fun _ _ _ => .ok .Frozen,
    verify_upgrade_client := fun _ _ _ _ _ _ => .ok (),
    client_type := fun _ => "07-tendermint" }

/-- A context storing a client state and a consensus state at its latest
height (1,10). -/
def ctxU : MockContext :=
  ⟨⟨[("07-tendermint-0",
      ⟨some (.Tendermint clientStateW), [(⟨1, 10⟩, .Tendermint trustedW)]⟩)], [], []⟩,
    100, ⟨0, 3⟩⟩

/-- An upgrade message for that client. -/
def msgU : MsgUpgradeClient :=
  ⟨"07-tendermint-0", ⟨"url-a", []⟩, ⟨"url-b", []⟩, [], [], "signer-1"⟩

/-- C5 witness: with a frozen client the validation fails with
`ClientNotActive(Frozen)`. -/
theorem upgrade_client_validate_spec_witness :
    upgrade_client_validate envFrozen ctxU msgU =
      .error (.client (.ClientNotActive .Frozen)) :=
  (upgrade_client_validate_spec envFrozen ctxU msgU (.Tendermint clientStateW)
    .Frozen rfl rfl rfl).1 rfl

/-- C6: `upgrade_client::validate` takes the context immutably (its type
here, as in Rust, gives it no way to write or emit), and whenever the
validate-then-execute pipeline or `execute` itself returns an error, the
store is left exactly as it was and no events are emitted — provided the
client's `update_state_on_upgrade` callback itself leaves the store
unchanged when it fails (true of the mock store, whose write operations
are infallible). -/
theorem upgrade_client_err_no_delta_no_events
    (env : UpgradeClientEnv) (upd : UpdateOnUpgradeFn) (ctx : MockContext)
    (msg : MsgUpgradeClient)
    (hupd : ∀ store cid a b cs e store' h,
        upd store cid a b cs = (some e, store', h) → store' = store) :
    (∀ e, (upgrade_client_execute env upd ctx msg).err = some e →
        (upgrade_client_execute env upd ctx msg).store = ctx.ibc_store ∧
        (upgrade_client_execute env upd ctx msg).events = []) ∧
    (∀ e, (upgrade_client_process env upd ctx msg).err = some e →
        (upgrade_client_process env upd ctx msg).store = ctx.ibc_store ∧
        (upgrade_client_process env upd ctx msg).events = []) := by
  have hexec : ∀ e, (upgrade_client_execute env upd ctx msg).err = some e →
      (upgrade_client_execute env upd ctx msg).store = ctx.ibc_store ∧
      (upgrade_client_execute env upd ctx msg).events = [] := by
    intro e he
    unfold upgrade_client_execute at he ⊢
    cases hcs : MockContext.client_state ctx msg.client_id with
    | error e' => simp [hcs]
    | ok old =>
        cases hu : upd ctx.ibc_store msg.client_id msg.upgraded_client_state
            msg.upgraded_consensus_state old with
        | mk oerr rest =>
            obtain ⟨store1, h1⟩ := rest
            cases oerr with
            | none => simp [hcs, hu] at he
            | some e2 =>
                have hst := hupd ctx.ibc_store msg.client_id msg.upgraded_client_state
                  msg.upgraded_consensus_state old e2 store1 h1 hu
                simp [hcs, hu, hst]
  refine ⟨hexec, ?_⟩
  intro e he
  unfold upgrade_client_process at he ⊢
  cases hv : upgrade_client_validate env ctx msg with
  | error e' => simp [hv]
  | ok u =>
      cases u
      rw [hv] at he
      exact hexec e he

/-- An upgrade callback that fails atomically. -/
def updFail : UpdateOnUpgradeFn :=
  fun store _ _ _ _ => (some (.client .InvalidSigner), store, ⟨0, 1⟩)

/-- C6 witness: with the frozen-client environment (validation fails) and a
failing upgrade callback (execution fails), neither run leaves a store
delta or an event. -/
theorem upgrade_client_err_no_delta_no_events_witness :
    ((upgrade_client_execute envFrozen updFail ctxU msgU).store = ctxU.ibc_store ∧
      (upgrade_client_execute envFrozen updFail ctxU msgU).events = []) ∧
    ((upgrade_client_process envFrozen updFail ctxU msgU).store = ctxU.ibc_store ∧
      (upgrade_client_process envFrozen updFail ctxU msgU).events = []) := by
  have hupd : ∀ store cid a b cs e store' h,
      updFail store cid a b cs = (some e, store', h) → store' = store := by
    intro store cid a b cs e store' h hx
    injection hx with h1 h2
    injection h2 with h3 h4
    exact h3.symm
  have H := upgrade_client_err_no_delta_no_events envFrozen updFail ctxU msgU hupd
  exact ⟨H.1 (.client .InvalidSigner) rfl, H.2 (.client (.ClientNotActive .Frozen)) rfl⟩

def natsOfString (s : String) : List Nat := s.toList.map Char.toNat

def stringOfNats (l : List Nat) : String := String.mk (l.map Char.ofNat)

theorem stringOfNats_natsOfString (s : String) : stringOfNats (natsOfString s) = s := by
  cases s with
  | mk data =>
      simp only [stringOfNats, natsOfString, String.toList, List.map_map]
      have h : (Char.ofNat ∘ Char.toNat) = id := funext Char.ofNat_toNat
      rw [h, List.map_id]

/-- A concrete injective byte encoding of the Tendermint client state
(numeric fields first, chain name characters at the tail). -/
def encTmClientState (x : TmClientState) : List Nat :=
  let ft := match x.frozen_height with
    | none => (0, 0, 0)
    | some h => (1, h.revision_number, h.revision_height)
  x.chain_id.revision :: x.trust_level.numerator :: x.trust_level.denominator ::
    x.trusting_period :: x.unbonding_period :: x.max_clock_drift ::
    x.latest_height.revision_number :: x.latest_height.revision_height ::
    ft.1 :: ft.2.1 :: ft.2.2 :: natsOfString x.chain_id.name

def decTmClientState : List Nat → Option TmClientState
  | rev :: num :: den :: tp :: up :: mcd :: lrn :: lrh :: ft :: frn :: frh :: rest =>
      some { chain_id := ⟨stringOfNats rest, rev⟩, trust_level := ⟨num, den⟩,
             trusting_period := tp, unbonding_period := up, max_clock_drift := mcd,
             latest_height := ⟨lrn, lrh⟩,
             frozen_height := if ft = 0 then none else some ⟨frn, frh⟩ }
  | _ => none

theorem decTmClientState_enc (x : TmClientState) :
    decTmClientState (encTmClientState x) = some x := by
  obtain ⟨⟨name, rev⟩, ⟨num, den⟩, tp, up, mcd, ⟨lrn, lrh⟩, fh⟩ := x
  cases fh with
  | none => simp [encTmClientState, decTmClientState, stringOfNats_natsOfString]
  | some h =>
      obtain ⟨frn, frh⟩ := h
      simp [encTmClientState, decTmClientState, stringOfNats_natsOfString]

def encMockClientState (x : MockClientState) : List Nat :=
  [x.latest_height.revision_number, x.latest_height.revision_height]

def decMockClientState : List Nat → Option MockClientState
  | [a, b] => some ⟨⟨a, b⟩⟩
  | _ => none

theorem decMockClientState_enc (x : MockClientState) :
    decMockClientState (encMockClientState x) = some x := by
  obtain ⟨⟨a, b⟩⟩ := x
  simp [encMockClientState, decMockClientState]

def encTmConsensusState (x : TmConsensusState) : List Nat :=
  [x.timestamp, x.root, x.next_validators_hash]

def decTmConsensusState : List Nat → Option TmConsensusState
  | [t, r, n] => some ⟨t, r, n⟩
  | _ => none

theorem decTmConsensusState_enc (x : TmConsensusState) :
    decTmConsensusState (encTmConsensusState x) = some x := by
  obtain ⟨t, r, n⟩ := x
  simp [encTmConsensusState, decTmConsensusState]

def encMockConsensusState (x : MockConsensusState) : List Nat :=
  [x.timestamp, x.root]

def decMockConsensusState : List Nat → Option MockConsensusState
  | [t, r] => some ⟨t, r⟩
  | _ => none

theorem decMockConsensusState_enc (x : MockConsensusState) :
    decMockConsensusState (encMockConsensusState x) = some x := by
  obtain ⟨t, r⟩ := x
  simp [encMockConsensusState, decMockConsensusState]

/-- The encoder of a canonical wire codec. -/
def canonicalEnc {α : Type} (url : String) (encB : α → List Nat) (x : α) : Any :=
  ⟨url, encB x⟩

/-- The decoder of a canonical wire codec: it accepts exactly the canonical
encodings under the registered url. -/
def canonicalDec {α : Type} (url : String) (encB : α → List Nat)
    (decB : List Nat → Option α) (a : Any) : Except ClientError α :=
  if a.type_url = url then
    match decB a.value with
    | some x =>
        if encB x = a.value then .ok x
        else .error (.Other "failed to deserialize message")
    | none => .error (.Other "failed to deserialize message")
  else .error (.Other "failed to deserialize message")

/-- A canonical wire codec from any byte encoding with a verified partial
inverse: decoding accepts exactly the canonical encodings, so both
round-trip laws hold. -/
def canonicalCodec {α : Type} (url : String) (encB : α → List Nat)
    (decB : List Nat → Option α) (hdec : ∀ x, decB (encB x) = some x) :
    WireCodec α url where
  enc := canonicalEnc url encB
  dec := canonicalDec url encB decB
  enc_url x := rfl
  dec_enc x := by simp [canonicalEnc, canonicalDec, hdec x]
  enc_dec a x h := by
    unfold canonicalDec at h
    unfold canonicalEnc
    by_cases hu : a.type_url = url
    · rw [if_pos hu] at h
      cases hd : decB a.value with
      | none => simp only [hd] at h; exact absurd h (by simp)
      | some y =>
          simp only [hd] at h
          by_cases hg : encB y = a.value
          · rw [if_pos hg] at h
            injection h with h'
            subst h'
            obtain ⟨tu, v⟩ := a
            exact congrArg₂ Any.mk hu.symm hg
          · rw [if_neg hg] at h; exact absurd h (by simp)
    · rw [if_neg hu] at h; exact absurd h (by simp)

def tmClientStateCodec : WireCodec TmClientState TENDERMINT_CLIENT_STATE_TYPE_URL :=
  canonicalCodec _ encTmClientState decTmClientState decTmClientState_enc

def mockClientStateCodec : WireCodec MockClientState MOCK_CLIENT_STATE_TYPE_URL :=
  canonicalCodec _ encMockClientState decMockClientState decMockClientState_enc

def tmConsensusStateCodec : WireCodec TmConsensusState TENDERMINT_CONSENSUS_STATE_TYPE_URL :=
  canonicalCodec _ encTmConsensusState decTmConsensusState decTmConsensusState_enc

def mockConsensusStateCodec : WireCodec MockConsensusState MOCK_CONSENSUS_STATE_TYPE_URL :=
  canonicalCodec _ encMockConsensusState decMockConsensusState decMockConsensusState_enc

/-- C7: for any per-variant codecs satisfying the spec's round-trip laws,
the `Any` envelope round-trips through the tagged dispatch: an `Any` that
deserialises into an `AnyClientState` / `AnyConsensusState` serialises
back to itself, and every `AnyClientState` / `AnyConsensusState`
deserialises from its own envelope. -/
theorem any_state_wire_round_trip
    (tmc : WireCodec TmClientState TENDERMINT_CLIENT_STATE_TYPE_URL)
    (mkc : WireCodec MockClientState MOCK_CLIENT_STATE_TYPE_URL)
    (tms : WireCodec TmConsensusState TENDERMINT_CONSENSUS_STATE_TYPE_URL)
    (mks : WireCodec MockConsensusState MOCK_CONSENSUS_STATE_TYPE_URL) :
    (∀ a x, AnyClientState.try_from tmc.dec mkc.dec a = .ok x →
        AnyClientState.into_any tmc.enc mkc.enc x = a) ∧
    (∀ x, AnyClientState.try_from tmc.dec mkc.dec
        (AnyClientState.into_any tmc.enc mkc.enc x) = .ok x) ∧
    (∀ a x, AnyConsensusState.try_from tms.dec mks.dec a = .ok x →
        AnyConsensusState.into_any tms.enc mks.enc x = a) ∧
    (∀ x, AnyConsensusState.try_from tms.dec mks.dec
        (AnyConsensusState.into_any tms.enc mks.enc x) = .ok x) := by
  have hne1 : MOCK_CLIENT_STATE_TYPE_URL ≠ TENDERMINT_CLIENT_STATE_TYPE_URL := by decide
  have hne2 : MOCK_CONSENSUS_STATE_TYPE_URL ≠ TENDERMINT_CONSENSUS_STATE_TYPE_URL := by
    decide
  refine ⟨?_, ?_, ?_, ?_⟩
  · intro a x h
    unfold AnyClientState.try_from at h
    by_cases h1 : a.type_url = TENDERMINT_CLIENT_STATE_TYPE_URL
    · rw [if_pos h1] at h
      cases hd : tmc.dec a with
      | error e => simp [hd, Except.map] at h
      | ok cs =>
          simp only [hd, Except.map] at h
          injection h with h'
          subst h'
          exact tmc.enc_dec a cs hd
    · rw [if_neg h1] at h
      by_cases h2 : a.type_url = MOCK_CLIENT_STATE_TYPE_URL
      · rw [if_pos h2] at h
        cases hd : mkc.dec a with
        | error e => simp [hd, Except.map] at h
        | ok cs =>
            simp only [hd, Except.map] at h
            injection h with h'
            subst h'
            exact mkc.enc_dec a cs hd
      · rw [if_neg h2] at h
        exact absurd h (by simp)
  · intro x
    cases x with
    | Tendermint cs =>
        simp [AnyClientState.try_from, AnyClientState.into_any, tmc.enc_url,
          tmc.dec_enc, Except.map]
    | Mock cs =>
        simp [AnyClientState.try_from, AnyClientState.into_any, mkc.enc_url,
          mkc.dec_enc, Except.map, hne1]
  · intro a x h
    unfold AnyConsensusState.try_from at h
    by_cases h1 : a.type_url = TENDERMINT_CONSENSUS_STATE_TYPE_URL
    · rw [if_pos h1] at h
      cases hd : tms.dec a with
      | error e => simp [hd, Except.map] at h
      | ok cs =>
          simp only [hd, Except.map] at h
          injection h with h'
          subst h'
          exact tms.enc_dec a cs hd
    · rw [if_neg h1] at h
      by_cases h2 : a.type_url = MOCK_CONSENSUS_STATE_TYPE_URL
      · rw [if_pos h2] at h
        cases hd : mks.dec a with
        | error e => simp [hd, Except.map] at h
        | ok cs =>
            simp only [hd, Except.map] at h
            injection h with h'
            subst h'
            exact mks.enc_dec a cs hd
      · rw [if_neg h2] at h
        exact absurd h (by simp)
  · intro x
    cases x with
    | Tendermint cs =>
        simp [AnyConsensusState.try_from, AnyConsensusState.into_any, tms.enc_url,
          tms.dec_enc, Except.map]
    | Mock cs =>
        simp [AnyConsensusState.try_from, AnyConsensusState.into_any, mks.enc_url,
          mks.dec_enc, Except.map, hne2]

/-- C7 witness: the round trip evaluated on the concrete canonical codecs
at a Tendermint client state and a Tendermint consensus state. -/
theorem any_state_wire_round_trip_witness :
    AnyClientState.try_from tmClientStateCodec.dec mockClientStateCodec.dec
        (AnyClientState.into_any tmClientStateCodec.enc mockClientStateCodec.enc
          (.Tendermint clientStateW)) = .ok (.Tendermint clientStateW) ∧
    AnyConsensusState.try_from tmConsensusStateCodec.dec mockConsensusStateCodec.dec
        (AnyConsensusState.into_any tmConsensusStateCodec.enc mockConsensusStateCodec.enc
          (.Tendermint trustedW)) = .ok (.Tendermint trustedW) :=
  ⟨(any_state_wire_round_trip tmClientStateCodec mockClientStateCodec
      tmConsensusStateCodec mockConsensusStateCodec).2.1 (.Tendermint clientStateW),
    (any_state_wire_round_trip tmClientStateCodec mockClientStateCodec
      tmConsensusStateCodec mockConsensusStateCodec).2.2.2 (.Tendermint trustedW)⟩

/-- C8: the tagged dispatch of `TryFrom<Any>`: under the Tendermint
client-state url the result is exactly the Tendermint decoder's (wrapped in
the `Tendermint` variant), under the mock url exactly the mock decoder's,
and under any other url a deserialisation error; likewise for the two
consensus-state urls. -/
theorem any_state_try_from_dispatch
    (tm_dec : Any → Except ClientError TmClientState)
    (mock_dec : Any → Except ClientError MockClientState)
    (tm_cs_dec : Any → Except ClientError TmConsensusState)
    (mock_cs_dec : Any → Except ClientError MockConsensusState)
    (a : Any) :
    (a.type_url = TENDERMINT_CLIENT_STATE_TYPE_URL →
        AnyClientState.try_from tm_dec mock_dec a =
          (tm_dec a).map AnyClientState.Tendermint) ∧
    (a.type_url = MOCK_CLIENT_STATE_TYPE_URL →
        AnyClientState.try_from tm_dec mock_dec a =
          (mock_dec a).map AnyClientState.Mock) ∧
    (a.type_url ≠ TENDERMINT_CLIENT_STATE_TYPE_URL →
      a.type_url ≠ MOCK_CLIENT_STATE_TYPE_URL →
        AnyClientState.try_from tm_dec mock_dec a =
          .error (.Other "failed to deserialize message")) ∧
    (a.type_url = TENDERMINT_CONSENSUS_STATE_TYPE_URL →
        AnyConsensusState.try_from tm_cs_dec mock_cs_dec a =
          (tm_cs_dec a).map AnyConsensusState.Tendermint) ∧
    (a.type_url = MOCK_CONSENSUS_STATE_TYPE_URL →
        AnyConsensusState.try_from tm_cs_dec mock_cs_dec a =
          (mock_cs_dec a).map AnyConsensusState.Mock) ∧
    (a.type_url ≠ TENDERMINT_CONSENSUS_STATE_TYPE_URL →
      a.type_url ≠ MOCK_CONSENSUS_STATE_TYPE_URL →
        AnyConsensusState.try_from tm_cs_dec mock_cs_dec a =
          .error (.Other "failed to deserialize message")) := by
  have hne1 : MOCK_CLIENT_STATE_TYPE_URL ≠ TENDERMINT_CLIENT_STATE_TYPE_URL := by decide
  have hne2 : MOCK_CONSENSUS_STATE_TYPE_URL ≠ TENDERMINT_CONSENSUS_STATE_TYPE_URL := by
    decide
  refine ⟨?_, ?_, ?_, ?_, ?_, ?_⟩
  · intro h1
    simp [AnyClientState.try_from, h1]
  · intro h2
    simp [AnyClientState.try_from, h2, hne1]
  · intro h1 h2
    simp [AnyClientState.try_from, h1, h2]
  · intro h1
    simp [AnyConsensusState.try_from, h1]
  · intro h2
    simp [AnyConsensusState.try_from, h2, hne2]
  · intro h1 h2
    simp [AnyConsensusState.try_from, h1, h2]
